import Mathlib

/-!
Verification of the Redis-backed store in src/Store/makeRedisStore.ts.

The TypeScript file declares makeRedisStore twice; the exported, current
definition is the second one (the handlers with the contact merge, the
group handlers and the fallback in getGroupMetadata), and every claim
points into it, so that definition is embedded here.

Modelling choices, kept uniform below:
- Redis keys wa:deviceId:chatmeta:jid, wa:deviceId:contact:jid,
  wa:deviceId:groupmeta:jid and wa:deviceId:chat:jid:messages become the
  association-list fields of Store; the set wa:deviceId:knownJIDs becomes
  an insertion-ordered duplicate-free list. The deviceId namespacing is a
  constant within one store instance and is dropped.
- JSON.stringify and JSON.parse are a reversible codec on domain values
  and are modelled as the identity.
- JS objects become structures whose possibly absent fields are Option;
  fields this development never inspects are collected in an attribute
  map named other. JS truthiness of a string field: undefined and the
  empty string are falsy.
- sock.groupMetadata and Date.now are external inputs; they enter the
  embedding as explicit arguments of the events and operations that
  consult them. A failed remote fetch is the value none.
- Redis LRANGE, LINDEX, LLEN, RPUSH, SET, GET, SADD, SMEMBERS are
  modelled on Lean lists, LRANGE and LINDEX with the Redis negative
  index convention.
-/

set_option autoImplicit false

namespace RedisStore

/-- JS truthiness of an optional string: undefined and the empty string are falsy. -/
def strTruthy : Option String → Bool
  | none => false
  | some s => !(s == "")

/-- JS a || b on optional string fields. -/
def jsOr (a b : Option String) : Option String :=
  if strTruthy a then a else b

/-- Redis GET over the association list holding one keyspace. -/
def aget {α : Type} : List (String × α) → String → Option α
  | [], _ => none
  | (k, v) :: rest, j => if j == k then some v else aget rest j

/-- Redis SET: overwrite the value stored under a key. -/
def aset {α : Type} : List (String × α) → String → α → List (String × α)
  | [], k, v => [(k, v)]
  | (k', v') :: rest, k, v => if k' == k then (k, v) :: rest else (k', v') :: aset rest k v

/-- Redis SADD on the insertion-ordered model of a set. -/
def sadd (l : List String) (j : String) : List String :=
  if j ∈ l then l else l ++ [j]

/-- Redis index normalisation: a negative index counts from the end of the list. -/
def normIdx (n i : Int) : Int := if i < 0 then n + i else i

/-- Redis LRANGE with inclusive bounds and the negative index convention. -/
def lrange {α : Type} (l : List α) (start stop : Int) : List α :=
  let n : Int := l.length
  let lo := max (normIdx n start) 0
  let hi := min (normIdx n stop) (n - 1)
  if hi < lo then [] else (l.drop lo.toNat).take (hi - lo + 1).toNat

/-- Redis LINDEX with the negative index convention. -/
def lindex {α : Type} (l : List α) (i : Int) : Option α :=
  let n : Int := l.length
  let j := normIdx n i
  if j < 0 ∨ n ≤ j then none else l[j.toNat]?

/-- Key of a WAMessage: remoteJid names the conversation, id the message. -/
structure MsgKey where
  remoteJid : Option String
  id : String
  deriving DecidableEq

/-- Message envelope. The content payload msg.message is an object or absent in
the source; it is modelled opaquely, present meaning truthy. -/
structure WAMessage where
  key : MsgKey
  message : Option String
  messageTimestamp : Nat
  messageStubType : Option Nat
  deriving DecidableEq

/-- Chat metadata written wholesale by chats.upsert and history snapshots. -/
structure Chat where
  id : String
  name : Option String
  unreadCount : Option Nat
  other : List (String × String)
  deriving DecidableEq

/-- Contact record; name, verifiedName and notify are the three name fields of
the non-destructive merge. -/
structure Contact where
  id : String
  name : Option String
  verifiedName : Option String
  notify : Option String
  imgUrl : Option String
  other : List (String × String)
  deriving DecidableEq

/-- Group participant; admin is the string role or absent. -/
structure Participant where
  id : String
  admin : Option String
  deriving DecidableEq

/-- The lastParticipantUpdate annotation written by group-participants.update. -/
structure ParticipantUpdateInfo where
  participants : List String
  action : String
  updatedAt : Nat
  participantCount : Nat
  adminList : List String
  deriving DecidableEq

/-- Group metadata; every field is optional because handlers merge against the
empty object when nothing is stored or fetched. -/
structure GroupMetadata where
  id : Option String
  subject : Option String
  participants : Option (List Participant)
  lastGroupUpdate : Option Nat
  lastParticipantUpdate : Option ParticipantUpdateInfo
  other : List (String × String)
  deriving DecidableEq

/-- The JS empty object, in the role of a GroupMetadata. -/
def emptyGroupMeta : GroupMetadata := ⟨none, none, none, none, none, []⟩

/-- The whole Redis keyspace of one store instance. -/
structure Store where
  knownJIDs : List String
  chatmeta : List (String × Chat)
  contacts : List (String × Contact)
  groupmeta : List (String × GroupMetadata)
  messages : List (String × List WAMessage)
  deriving DecidableEq

def emptyStore : Store := ⟨[], [], [], [], []⟩

/-- Content of the message list of one conversation; a missing key is the empty list. -/
def rawMsgs (s : Store) (jid : String) : List WAMessage :=
  (aget s.messages jid).getD []

/-- SADD of a conversation id into knownJIDs. -/
def addKnown (s : Store) (j : String) : Store :=
  { s with knownJIDs := sadd s.knownJIDs j }

/-- RPUSH of a message onto the list of one conversation. -/
def pushMsg (s : Store) (jid : String) (m : WAMessage) : Store :=
  { s with messages := aset s.messages jid (rawMsgs s jid ++ [m]) }

/-- Modelled from the spec: the numeric code proto.WebMessageInfo.StubType.CIPHERTEXT,
the stub type marking an undecryptable placeholder. The WAProto enum is not part of
this repository; only that the code is one distinguished value matters below. -/
def CIPHERTEXT : Nat := 2

/-- Per-message step of the messages.upsert handler: push and register the
conversation when the message has a truthy remoteJid and a content payload. -/
def handleMsgUpsert (s : Store) (m : WAMessage) : Store :=
  match m.key.remoteJid with
  | none => s
  | some jid =>
    if (jid != "") && m.message.isSome then addKnown (pushMsg s jid m) jid else s

/-- Skip condition of the messaging-history.set message loop: no content payload
and the CIPHERTEXT stub type. -/
def skipHistoryMsg (m : WAMessage) : Bool :=
  m.message.isNone && (m.messageStubType == some CIPHERTEXT)

/-- Per-message step of the messaging-history.set handler; after the skip test the
source repeats the push logic of messages.upsert verbatim. -/
def handleHistoryMsg (s : Store) (m : WAMessage) : Store :=
  if skipHistoryMsg m then s else handleMsgUpsert s m

/-- Per-chat step shared by chats.upsert and the history snapshot: authoritative
write of the chat metadata plus registration of the conversation id. -/
def chatStep (s : Store) (c : Chat) : Store :=
  addKnown { s with chatmeta := aset s.chatmeta c.id c } c.id

/-- Per-chat step of messaging-history.set: chatStep plus, for a group id, a
best-effort remote metadata fetch whose failure is ignored. -/
def historyChatStep (fetch : String → Option GroupMetadata) (s : Store) (c : Chat) : Store :=
  let s1 := chatStep s c
  if c.id.endsWith "@g.us" then
    match fetch c.id with
    | some meta => { s1 with groupmeta := aset s1.groupmeta c.id meta }
    | none => s1
  else s1

/-- The JS empty object in the role of a missing existing contact; the id slot is
irrelevant because the merge always takes the incoming id. -/
def emptyContactLike (i : String) : Contact := ⟨i, none, none, none, none, []⟩

/-- JS object spread on the attribute maps: fields of inc win, the remaining
fields of ex are kept. -/
def overlayFields (ex inc : List (String × String)) : List (String × String) :=
  inc ++ ex.filter (fun p => (aget inc p.1).isNone)

/-- The contact merge of the contacts.upsert handler: spread of existing then
incoming, with the three name fields kept from incoming only when truthy. -/
def mergeContact (existing incoming : Contact) : Contact :=
  { id := incoming.id
    name := jsOr incoming.name existing.name
    verifiedName := jsOr incoming.verifiedName existing.verifiedName
    notify := jsOr incoming.notify existing.notify
    imgUrl := incoming.imgUrl.or existing.imgUrl
    other := overlayFields existing.other incoming.other }

/-- Per-contact step of contacts.upsert: read existing, merge, write back. -/
def contactStep (s : Store) (c : Contact) : Store :=
  let existing := (aget s.contacts c.id).getD (emptyContactLike c.id)
  { s with contacts := aset s.contacts c.id (mergeContact existing c) }

/-- Per-contact step of messaging-history.set: a plain write, no merge. -/
def historyContactStep (s : Store) (c : Contact) : Store :=
  { s with contacts := aset s.contacts c.id c }

/-- Key under which a group payload is stored; event payloads carry their id. -/
def gkey (g : GroupMetadata) : String := g.id.getD ""

/-- Per-group step of groups.upsert: a plain write. -/
def groupUpsertStep (s : Store) (g : GroupMetadata) : Store :=
  { s with groupmeta := aset s.groupmeta (gkey g) g }

/-- JS object spread of two group metadata records: fields of latest win. -/
def overlayGroup (ex latest : GroupMetadata) : GroupMetadata :=
  { id := latest.id.or ex.id
    subject := latest.subject.or ex.subject
    participants := latest.participants.or ex.participants
    lastGroupUpdate := latest.lastGroupUpdate.or ex.lastGroupUpdate
    lastParticipantUpdate := latest.lastParticipantUpdate.or ex.lastParticipantUpdate
    other := overlayFields ex.other latest.other }

/-- Per-group step of groups.update: merge the patch over the stored record and
stamp lastGroupUpdate with the current time. -/
def groupUpdateStep (now : Nat) (s : Store) (g : GroupMetadata) : Store :=
  let key := gkey g
  let existingMeta := (aget s.groupmeta key).getD emptyGroupMeta
  let merged := { overlayGroup existingMeta g with lastGroupUpdate := some now }
  { s with groupmeta := aset s.groupmeta key merged }

/-- JS truthiness of the admin role of a participant. -/
def adminTruthy (p : Participant) : Bool := strTruthy p.admin

/-- The group-participants.update handler: read existing, take the best-effort
fetched metadata (the empty object when the fetch failed), derive the count and
admin list from the fetched record, write the merge with the annotation. -/
def participantsUpdateHandler (s : Store) (id : String) (participants : List String)
    (action : String) (now : Nat) (fetched : Option GroupMetadata) : Store :=
  let existingMeta := (aget s.groupmeta id).getD emptyGroupMeta
  let latestMeta := fetched.getD emptyGroupMeta
  let participantCount := (latestMeta.participants.map List.length).getD 0
  let adminList := ((latestMeta.participants.getD []).filter adminTruthy).map Participant.id
  let mergedMeta := { overlayGroup existingMeta latestMeta with
    lastParticipantUpdate := some ⟨participants, action, now, participantCount, adminList⟩ }
  { s with groupmeta := aset s.groupmeta id mergedMeta }

/-- One delivered event, with the external inputs the handler consults (remote
fetch results, the clock) carried explicitly. -/
inductive Event where
  | historySet (chats : List Chat) (contacts : List Contact) (messages : List WAMessage)
      (fetch : String → Option GroupMetadata)
  | messagesUpsert (messages : List WAMessage)
  | chatsUpsert (chats : List Chat)
  | contactsUpsert (contacts : List Contact)
  | groupsUpsert (groups : List GroupMetadata)
  | groupsUpdate (now : Nat) (groups : List GroupMetadata)
  | participantsUpdate (id : String) (participants : List String) (action : String)
      (now : Nat) (fetched : Option GroupMetadata)

/-- Dispatch of one event to its handler, as registered by bind. The history
handler processes messages, then chats, then contacts, in source order. -/
def applyEvent (s : Store) : Event → Store
  | .historySet chats contacts msgs fetch =>
    let s1 := msgs.foldl handleHistoryMsg s
    let s2 := chats.foldl (historyChatStep fetch) s1
    contacts.foldl historyContactStep s2
  | .messagesUpsert msgs => msgs.foldl handleMsgUpsert s
  | .chatsUpsert chats => chats.foldl chatStep s
  | .contactsUpsert cs => cs.foldl contactStep s
  | .groupsUpsert gs => gs.foldl groupUpsertStep s
  | .groupsUpdate now gs => gs.foldl (groupUpdateStep now) s
  | .participantsUpdate id parts action now fetched =>
    participantsUpdateHandler s id parts action now fetched

def applyEvents (s : Store) (es : List Event) : Store :=
  es.foldl applyEvent s

/-- SMEMBERS of the known conversation ids. -/
def getKnownJIDs (s : Store) : List String := s.knownJIDs

def getChat (s : Store) (jid : String) : Option Chat := aget s.chatmeta jid

def getContact (s : Store) (jid : String) : Option Contact := aget s.contacts jid

/-- All stored messages of one conversation, read with LRANGE 0 -1. -/
def getMessages (s : Store) (jid : String) : List WAMessage :=
  lrange (rawMsgs s jid) 0 (-1)

/-- Linear scan of the stored list for one message id. -/
def getMessage (s : Store) (jid msgId : String) : Option WAMessage :=
  (getMessages s jid).find? (fun m => m.key.id == msgId)

/-- The part of a jid before the first at sign. -/
def localPart (jid : String) : String := (jid.splitOn "@").headD jid

/-- One row of the getAllChats view; the source spreads the chat record and then
the named fields over it, the chat record is carried here as meta. -/
structure ChatSummary where
  jid : String
  name : String
  profilePictureUrl : Option String
  lastMessage : Option WAMessage
  unreadCount : Nat
  isGroup : Bool
  meta : Chat
  deriving DecidableEq

/-- Row construction of getAllChats for a jid whose chat metadata is stored. -/
def mkChatSummary (s : Store) (jid : String) (chat : Chat) : ChatSummary :=
  let contact := getContact s jid
  { jid := jid
    name := (((contact.bind Contact.name).or (contact.bind Contact.notify)).or chat.name).getD
      (localPart jid)
    profilePictureUrl := contact.bind Contact.imgUrl
    lastMessage := lindex (rawMsgs s jid) (-1)
    unreadCount := chat.unreadCount.getD 0
    isGroup := jid.endsWith "@g.us"
    meta := chat }

/-- getAllChats: iterate knownJIDs and emit a row for each jid whose chat
metadata is stored, silently dropping the rest. -/
def getAllChats (s : Store) : List ChatSummary :=
  s.knownJIDs.filterMap (fun jid => (getChat s jid).map (mkChatSummary s jid))

/-- The reduced digest returned by mostRecentMessage. -/
structure MsgDigest where
  key : MsgKey
  messageTimestamp : Nat
  messageStubType : Option Nat
  deriving DecidableEq

def digestOf (m : WAMessage) : MsgDigest := ⟨m.key, m.messageTimestamp, m.messageStubType⟩

/-- mostRecentMessage: LINDEX -1 reduced to key, timestamp and stub type. -/
def mostRecentMessage (s : Store) (jid : String) : Option MsgDigest :=
  (lindex (rawMsgs s jid) (-1)).map digestOf

inductive MessageDirection where
  | latest
  | earliest
  deriving DecidableEq

/-- getSingleChatMessages: windowed read; latest computes LLEN, then LRANGE from
max(total - count, 0) to total - 1; earliest reads LRANGE 0 (count - 1). -/
def getSingleChatMessages (s : Store) (jid : String) (count : Nat)
    (direction : MessageDirection) : List WAMessage :=
  let listVal := rawMsgs s jid
  match direction with
  | .latest =>
    let total : Int := listVal.length
    let start := max (total - count) 0
    lrange listVal start (total - 1)
  | .earliest => lrange listVal 0 ((count : Int) - 1)

/-- getSingleChatMessages at its default arguments count = 20, direction latest. -/
def getSingleChatMessagesDefault (s : Store) (jid : String) : List WAMessage :=
  getSingleChatMessages s jid 20 MessageDirection.latest

/-- Result of one getGroupMetadata call: the returned value, the store after the
call, and how many remote fetches were performed. -/
structure GroupMetaResult where
  result : Option GroupMetadata
  state : Store
  fetches : Nat
  deriving DecidableEq

/-- getGroupMetadata: stored value if present, else one best-effort remote fetch
whose success is persisted and returned and whose failure yields none. The
captured socketRef is modelled as the fetch argument, the store being queried
only after bind. -/
def getGroupMetadataOp (fetch : String → Option GroupMetadata) (s : Store)
    (jid : String) : GroupMetaResult :=
  match aget s.groupmeta jid with
  | some m => ⟨some m, s, 0⟩
  | none =>
    match fetch jid with
    | some latestMeta => ⟨some latestMeta, { s with groupmeta := aset s.groupmeta jid latestMeta }, 1⟩
    | none => ⟨none, s, 1⟩

/-- toJSON: aggregate export keyed by the known conversation ids. -/
def toJSONExport (s : Store) : List (String × Option Chat × List WAMessage × Option Contact) :=
  s.knownJIDs.map (fun jid => (jid, getChat s jid, getMessages s jid, getContact s jid))

/-- Push condition of the message handlers, seen from one conversation c: the
message goes onto the list of c exactly when its remoteJid is c, c is truthy and
a content payload is present. -/
def msgFor (c : String) (m : WAMessage) : Bool :=
  (m.key.remoteJid == some c) && (c != "") && m.message.isSome

/-- The messages one event appends to the list of conversation c, read off the
handlers: only messaging-history.set and messages.upsert append, and only
messages passing msgFor (the ciphertext skip of the history handler is
subsumed, a skipped message has no content payload). -/
def appendedMessages (c : String) : Event → List WAMessage
  | .historySet _ _ msgs _ => msgs.filter (msgFor c)
  | .messagesUpsert msgs => msgs.filter (msgFor c)
  | _ => []

/-- The last chat of a list carrying a given id, the record chats.upsert leaves
stored under that id. -/
def lastChatFor (chats : List Chat) (jid : String) : Option Chat :=
  chats.foldl (fun acc c => if c.id == jid then some c else acc) none

/-! Concrete inputs used to evaluate the ten claims on small stores. -/

/-- Contact delivered in a contacts.upsert event. -/
def contactCarol : Contact := ⟨"carol@s.whatsapp.net", some "Carol", none, none, none, []⟩

/-- Message with a content payload. -/
def msgHello : WAMessage := ⟨⟨some "c@s.whatsapp.net", "M1"⟩, some "hello", 5, none⟩

/-- History message with no content payload and a stub type that is not the
ciphertext code. -/
def msgRevoked : WAMessage := ⟨⟨some "x@s.whatsapp.net", "A1"⟩, none, 0, some 1⟩

/-- Store holding exactly one message for one conversation. -/
def storeOneMsg : Store := applyEvent emptyStore (Event.messagesUpsert [msgHello])

/-- Existing contact record of the merge example. -/
def contactAliceExisting : Contact := ⟨"a@s.whatsapp.net", some "Alice", none, some "A", none, []⟩

/-- Incoming contact update of the merge example. -/
def contactAliceIncoming : Contact := ⟨"a@s.whatsapp.net", some "", some "Alice V", none, none, []⟩

/-- Store already holding the existing Alice record. -/
def storeAlice : Store :=
  { emptyStore with contacts := [("a@s.whatsapp.net", contactAliceExisting)] }

/-- Group metadata returned by the working remote fetch of the fallback example. -/
def metaTeam : GroupMetadata := ⟨some "g6@g.us", some "Team", none, none, none, []⟩

/-- Remote fetch that succeeds for exactly one group id. -/
def fetchTeam : String → Option GroupMetadata :=
  fun j => if j == "g6@g.us" then some metaTeam else none

/-- Chat delivered in a chats.upsert event. -/
def chatW : Chat := ⟨"w@s.whatsapp.net", some "W", none, []⟩

/-- Chat metadata of the summary example. -/
def chatC8 : Chat := ⟨"c8@s.whatsapp.net", some "Chat8", none, []⟩

/-- Content message of the summary example. -/
def msgC8 : WAMessage := ⟨⟨some "c8@s.whatsapp.net", "M8"⟩, some "hello", 7, none⟩

/-- Store with one chat record and one stored content message. -/
def storeSummary : Store :=
  applyEvents emptyStore [Event.chatsUpsert [chatC8], Event.messagesUpsert [msgC8]]

/-- Three participants, one of them an admin. -/
def partsThree : List Participant := [⟨"p1@s", some "admin"⟩, ⟨"p2@s", none⟩, ⟨"p3@s", none⟩]

/-- Stored group metadata carrying the three participants. -/
def metaThree : GroupMetadata := ⟨some "g9@g.us", some "Team", some partsThree, none, none, []⟩

/-- Store holding metaThree under its group id. -/
def storeGroupThree : Store := applyEvent emptyStore (Event.groupsUpsert [metaThree])

/-- Participant update for the stored group whose remote re-fetch fails. -/
def evRemoveP2 : Event := Event.participantsUpdate "g9@g.us" ["p2@s"] "remove" 100 none

/-! Helper lemmas about the store primitives. -/

theorem aget_aset {α : Type} : ∀ (l : List (String × α)) (k : String) (v : α) (j : String),
    aget (aset l k v) j = if j = k then some v else aget l j
  | [], k, v, j => by
    by_cases h : j = k <;> simp [aset, aget, h]
  | (k', v') :: rest, k, v, j => by
    by_cases hk : k' = k
    · subst hk
      by_cases hj : j = k' <;> simp [aset, aget, hj]
    · by_cases hj : j = k'
      · subst hj
        have hne : j ≠ k := hk
        simp [aset, aget, hk, hne]
      · simp [aset, aget, hk, hj, aget_aset rest k v j]

theorem aget_append {α : Type} (j : String) :
    ∀ l1 l2 : List (String × α), aget (l1 ++ l2) j = (aget l1 j).or (aget l2 j)
  | [], _ => rfl
  | (k, v) :: rest, l2 => by
    by_cases h : j = k <;> simp [aget, h, aget_append j rest l2]

theorem aget_filter_keep {α : Type} (inc : List (String × α)) (j : String)
    (hnone : aget inc j = none) :
    ∀ ex : List (String × α), aget (ex.filter (fun p => (aget inc p.1).isNone)) j = aget ex j
  | [] => rfl
  | (k, v) :: rest => by
    rw [List.filter_cons]
    by_cases h : j = k
    · subst h
      simp [hnone, aget]
    · by_cases hkeep : (aget inc k).isNone = true
      · simp [hkeep, aget, h, aget_filter_keep inc j hnone rest]
      · simp [hkeep, aget, h, aget_filter_keep inc j hnone rest]

theorem aget_overlayFields (ex inc : List (String × String)) (j : String) :
    aget (overlayFields ex inc) j = (aget inc j).or (aget ex j) := by
  unfold overlayFields
  rw [aget_append]
  cases hinc : aget inc j with
  | some v => simp [Option.or]
  | none => simp [Option.or, aget_filter_keep inc j hinc ex]

theorem mem_sadd_self (l : List String) (j : String) : j ∈ sadd l j := by
  by_cases h : j ∈ l <;> simp [sadd, h]

theorem mem_sadd_of_mem (l : List String) (i j : String) (h : i ∈ l) : i ∈ sadd l j := by
  by_cases hj : j ∈ l <;> simp [sadd, hj, h]

theorem foldl_proj_eq {σ β : Type} {α : Type} (f : σ → α → σ) (proj : σ → β)
    (h : ∀ s a, proj (f s a) = proj s) :
    ∀ (l : List α) (s : σ), proj (l.foldl f s) = proj s
  | [], _ => rfl
  | a :: l, s => by
    rw [List.foldl_cons, foldl_proj_eq f proj h l (f s a), h]

theorem foldl_pres {σ α : Type} (f : σ → α → σ) (P : σ → Prop)
    (h : ∀ s a, P s → P (f s a)) :
    ∀ (l : List α) (s : σ), P s → P (l.foldl f s)
  | [], _, hp => hp
  | a :: l, s, hp => by
    rw [List.foldl_cons]
    exact foldl_pres f P h l (f s a) (h s a hp)

theorem foldl_mem_target {σ α : Type} (f : σ → α → σ) (P : σ → Prop)
    (hpres : ∀ s a, P s → P (f s a)) (a : α) (hset : ∀ s, P (f s a)) :
    ∀ (l : List α) (s : σ), a ∈ l → P (l.foldl f s)
  | [], _, hmem => absurd hmem (List.not_mem_nil a)
  | b :: l, s, hmem => by
    rw [List.foldl_cons]
    rcases List.mem_cons.mp hmem with h | h
    · subst h
      exact foldl_pres f P hpres l (f s a) (hset s)
    · exact foldl_mem_target f P hpres a hset l (f s b) h

/-! Redis LRANGE and LINDEX, characterised on lists. -/

theorem lrange_nil {α : Type} (a b : Int) : lrange ([] : List α) a b = [] := by
  simp only [lrange]
  split_ifs <;> simp

theorem lrange_all {α : Type} (l : List α) : lrange l 0 (-1) = l := by
  by_cases h : l.length = 0
  · rw [List.length_eq_zero.mp h, lrange_nil]
  · simp only [lrange, normIdx]
    rw [if_pos (show (-1 : Int) < 0 by omega), if_neg (show ¬ ((0 : Int) < 0) by omega)]
    rw [if_neg (show ¬ (min ((l.length : Int) + -1) ((l.length : Int) - 1)
      < max 0 0) by omega)]
    have h1 : (max (0 : Int) 0).toNat = 0 := by omega
    have h2 : (min ((l.length : Int) + -1) ((l.length : Int) - 1) - max 0 0 + 1).toNat
        = l.length := by omega
    rw [h1, h2, List.drop_zero, List.take_length]

theorem getMessages_eq_raw (s : Store) (jid : String) : getMessages s jid = rawMsgs s jid :=
  lrange_all _

theorem lindex_neg_one {α : Type} (l : List α) : lindex l (-1) = l.getLast? := by
  simp only [lindex, normIdx]
  rw [if_pos (show (-1 : Int) < 0 by omega)]
  split_ifs with h
  · have h0 : l.length = 0 := by omega
    rw [List.length_eq_zero.mp h0]
    rfl
  · have h1 : ((l.length : Int) + -1).toNat = l.length - 1 := by omega
    rw [h1, List.getLast?_eq_getElem?]

theorem lrange_latest {α : Type} (l : List α) (k : Nat) :
    lrange l (max ((l.length : Int) - k) 0) ((l.length : Int) - 1)
      = l.drop (l.length - k) := by
  by_cases h0 : l.length = 0
  · rw [List.length_eq_zero.mp h0]
    rw [lrange_nil]
    simp
  · simp only [lrange, normIdx]
    rw [if_neg (show ¬ (max ((l.length : Int) - (k : Int)) 0 < 0) by omega)]
    rw [if_neg (show ¬ ((l.length : Int) - 1 < 0) by omega)]
    split_ifs with hcond
    · have hdrop : l.length - k = l.length := by omega
      rw [hdrop, List.drop_length]
    · have h1 : (max (max ((l.length : Int) - (k : Int)) 0) 0).toNat = l.length - k := by
        omega
      have h2 : (min ((l.length : Int) - 1) ((l.length : Int) - 1)
          - max (max ((l.length : Int) - (k : Int)) 0) 0 + 1).toNat = min k l.length := by
        omega
      rw [h1, h2]
      apply List.take_of_length_le
      rw [List.length_drop]
      omega

theorem lrange_earliest {α : Type} (l : List α) (k : Nat) (hk : 1 ≤ k) :
    lrange l 0 ((k : Int) - 1) = l.take k := by
  simp only [lrange, normIdx]
  rw [if_neg (show ¬ ((0 : Int) < 0) by omega), if_neg (show ¬ ((k : Int) - 1 < 0) by omega)]
  split_ifs with hcond
  · have h0 : l.length = 0 := by omega
    rw [List.length_eq_zero.mp h0]
    simp
  · have h1 : (max (0 : Int) 0).toNat = 0 := by omega
    have h2 : (min ((k : Int) - 1) ((l.length : Int) - 1) - max 0 0 + 1).toNat
        = min k l.length := by omega
    rw [h1, h2, List.drop_zero]
    rcases Nat.le_total k l.length with h | h
    · rw [min_eq_left h]
    · rw [min_eq_right h, List.take_length, List.take_of_length_le h]

/-! Which state components each handler touches. -/

theorem messages_addKnown (s : Store) (j : String) : (addKnown s j).messages = s.messages := rfl

theorem known_pushMsg (s : Store) (jid : String) (m : WAMessage) :
    (pushMsg s jid m).knownJIDs = s.knownJIDs := rfl

theorem messages_chatStep (s : Store) (c : Chat) : (chatStep s c).messages = s.messages := rfl

theorem known_chatStep (s : Store) (c : Chat) :
    (chatStep s c).knownJIDs = sadd s.knownJIDs c.id := rfl

theorem messages_historyChatStep (fetch : String → Option GroupMetadata) (s : Store) (c : Chat) :
    (historyChatStep fetch s c).messages = s.messages := by
  unfold historyChatStep
  by_cases hg : c.id.endsWith "@g.us"
  · cases h : fetch c.id <;> simp [hg, h, chatStep, addKnown]
  · simp [hg, chatStep, addKnown]

theorem known_historyChatStep (fetch : String → Option GroupMetadata) (s : Store) (c : Chat) :
    (historyChatStep fetch s c).knownJIDs = sadd s.knownJIDs c.id := by
  unfold historyChatStep
  by_cases hg : c.id.endsWith "@g.us"
  · cases h : fetch c.id <;> simp [hg, h, chatStep, addKnown]
  · simp [hg, chatStep, addKnown]

theorem messages_contactStep (s : Store) (c : Contact) :
    (contactStep s c).messages = s.messages := rfl

theorem known_contactStep (s : Store) (c : Contact) :
    (contactStep s c).knownJIDs = s.knownJIDs := rfl

theorem messages_historyContactStep (s : Store) (c : Contact) :
    (historyContactStep s c).messages = s.messages := rfl

theorem known_historyContactStep (s : Store) (c : Contact) :
    (historyContactStep s c).knownJIDs = s.knownJIDs := rfl

theorem messages_groupUpsertStep (s : Store) (g : GroupMetadata) :
    (groupUpsertStep s g).messages = s.messages := rfl

theorem known_groupUpsertStep (s : Store) (g : GroupMetadata) :
    (groupUpsertStep s g).knownJIDs = s.knownJIDs := rfl

theorem messages_groupUpdateStep (now : Nat) (s : Store) (g : GroupMetadata) :
    (groupUpdateStep now s g).messages = s.messages := rfl

theorem known_groupUpdateStep (now : Nat) (s : Store) (g : GroupMetadata) :
    (groupUpdateStep now s g).knownJIDs = s.knownJIDs := rfl

theorem messages_participantsUpdate (s : Store) (id : String) (parts : List String)
    (action : String) (now : Nat) (fetched : Option GroupMetadata) :
    (participantsUpdateHandler s id parts action now fetched).messages = s.messages := rfl

theorem known_participantsUpdate (s : Store) (id : String) (parts : List String)
    (action : String) (now : Nat) (fetched : Option GroupMetadata) :
    (participantsUpdateHandler s id parts action now fetched).knownJIDs = s.knownJIDs := rfl

theorem state_getGroupMetadataOp (fetch : String → Option GroupMetadata) (s : Store)
    (jid : String) :
    ((getGroupMetadataOp fetch s jid).state).knownJIDs = s.knownJIDs ∧
    ((getGroupMetadataOp fetch s jid).state).messages = s.messages := by
  unfold getGroupMetadataOp
  cases aget s.groupmeta jid with
  | some m => exact ⟨rfl, rfl⟩
  | none => cases fetch jid with
    | some latestMeta => exact ⟨rfl, rfl⟩
    | none => exact ⟨rfl, rfl⟩

/-! What the message handlers append, conversation by conversation. -/

theorem rawMsgs_pushMsg (s : Store) (jid : String) (m : WAMessage) (c : String) :
    rawMsgs (pushMsg s jid m) c = if c = jid then rawMsgs s c ++ [m] else rawMsgs s c := by
  unfold rawMsgs pushMsg
  by_cases h : c = jid
  · subst h
    simp [aget_aset, rawMsgs]
  · simp [aget_aset, h, rawMsgs]

theorem rawMsgs_addKnown (s : Store) (j c : String) : rawMsgs (addKnown s j) c = rawMsgs s c :=
  rfl

theorem rawMsgs_handleMsgUpsert (s : Store) (m : WAMessage) (c : String) :
    rawMsgs (handleMsgUpsert s m) c = rawMsgs s c ++ (if msgFor c m then [m] else []) := by
  unfold handleMsgUpsert
  cases hj : m.key.remoteJid with
  | none =>
    have hm : msgFor c m = false := by simp [msgFor, hj]
    simp [hm]
  | some jid =>
    show rawMsgs (if (jid != "") && m.message.isSome then addKnown (pushMsg s jid m) jid
      else s) c = rawMsgs s c ++ (if msgFor c m then [m] else [])
    by_cases hc : c = jid
    · have hm : msgFor c m = ((jid != "") && m.message.isSome) := by
        simp [msgFor, hj, hc]
      by_cases hcond : ((jid != "") && m.message.isSome) = true
      · rw [if_pos hcond, rawMsgs_addKnown, rawMsgs_pushMsg, if_pos hc, hm, if_pos hcond]
      · rw [if_neg hcond, hm, if_neg hcond, List.append_nil]
    · have hm : msgFor c m = false := by
        have hne : ((some jid : Option String) == some c) = false :=
          beq_eq_false_iff_ne.mpr (fun h => hc (Option.some.inj h).symm)
        simp [msgFor, hj, hne]
      rw [hm]
      by_cases hcond : ((jid != "") && m.message.isSome) = true
      · rw [if_pos hcond, rawMsgs_addKnown, rawMsgs_pushMsg, if_neg hc]
        simp
      · rw [if_neg hcond]
        simp

theorem rawMsgs_handleHistoryMsg (s : Store) (m : WAMessage) (c : String) :
    rawMsgs (handleHistoryMsg s m) c = rawMsgs s c ++ (if msgFor c m then [m] else []) := by
  unfold handleHistoryMsg
  by_cases h : skipHistoryMsg m = true
  · rw [if_pos h]
    have hnone : m.message = none := by
      have h1 := (Bool.and_eq_true _ _).mp h
      exact Option.isNone_iff_eq_none.mp h1.1
    have hfalse : msgFor c m = false := by simp [msgFor, hnone]
    simp [hfalse]
  · rw [if_neg h]
    exact rawMsgs_handleMsgUpsert s m c

theorem rawMsgs_foldl_upsert (msgs : List WAMessage) (s : Store) (c : String) :
    rawMsgs (msgs.foldl handleMsgUpsert s) c = rawMsgs s c ++ msgs.filter (msgFor c) := by
  induction msgs generalizing s with
  | nil => simp
  | cons m rest ih =>
    rw [List.foldl_cons, ih, rawMsgs_handleMsgUpsert, List.filter_cons]
    by_cases h : msgFor c m <;> simp [h]

theorem rawMsgs_foldl_history (msgs : List WAMessage) (s : Store) (c : String) :
    rawMsgs (msgs.foldl handleHistoryMsg s) c = rawMsgs s c ++ msgs.filter (msgFor c) := by
  induction msgs generalizing s with
  | nil => simp
  | cons m rest ih =>
    rw [List.foldl_cons, ih, rawMsgs_handleHistoryMsg, List.filter_cons]
    by_cases h : msgFor c m <;> simp [h]

/-- One event appends exactly appendedMessages to the list of each conversation. -/
theorem rawMsgs_applyEvent (s : Store) (e : Event) (c : String) :
    rawMsgs (applyEvent s e) c = rawMsgs s c ++ appendedMessages c e := by
  cases e with
  | historySet chats contacts msgs fetch =>
    show rawMsgs (contacts.foldl historyContactStep
      (chats.foldl (historyChatStep fetch) (msgs.foldl handleHistoryMsg s))) c = _
    have h1 : (contacts.foldl historyContactStep
        (chats.foldl (historyChatStep fetch) (msgs.foldl handleHistoryMsg s))).messages
        = (chats.foldl (historyChatStep fetch) (msgs.foldl handleHistoryMsg s)).messages :=
      foldl_proj_eq _ Store.messages (fun s a => messages_historyContactStep s a) _ _
    have h2 : (chats.foldl (historyChatStep fetch) (msgs.foldl handleHistoryMsg s)).messages
        = (msgs.foldl handleHistoryMsg s).messages :=
      foldl_proj_eq _ Store.messages (fun s a => messages_historyChatStep fetch s a) _ _
    unfold rawMsgs
    rw [h1, h2]
    exact rawMsgs_foldl_history msgs s c
  | messagesUpsert msgs => exact rawMsgs_foldl_upsert msgs s c
  | chatsUpsert chats =>
    show rawMsgs (chats.foldl chatStep s) c = _
    unfold rawMsgs
    rw [foldl_proj_eq _ Store.messages (fun s a => messages_chatStep s a) _ _]
    simp [appendedMessages]
  | contactsUpsert cs =>
    show rawMsgs (cs.foldl contactStep s) c = _
    unfold rawMsgs
    rw [foldl_proj_eq _ Store.messages (fun s a => messages_contactStep s a) _ _]
    simp [appendedMessages]
  | groupsUpsert gs =>
    show rawMsgs (gs.foldl groupUpsertStep s) c = _
    unfold rawMsgs
    rw [foldl_proj_eq _ Store.messages (fun s a => messages_groupUpsertStep s a) _ _]
    simp [appendedMessages]
  | groupsUpdate now gs =>
    show rawMsgs (gs.foldl (groupUpdateStep now) s) c = _
    unfold rawMsgs
    rw [foldl_proj_eq _ Store.messages (fun s a => messages_groupUpdateStep now s a) _ _]
    simp [appendedMessages]
  | participantsUpdate id parts action now fetched =>
    show rawMsgs (participantsUpdateHandler s id parts action now fetched) c = _
    unfold rawMsgs
    rw [messages_participantsUpdate]
    simp [appendedMessages]

/-! Membership in knownJIDs across the handlers. -/

theorem known_mono_handleMsgUpsert (s : Store) (m : WAMessage) (j : String)
    (h : j ∈ s.knownJIDs) : j ∈ (handleMsgUpsert s m).knownJIDs := by
  unfold handleMsgUpsert
  cases m.key.remoteJid with
  | none => exact h
  | some jid =>
    show j ∈ (if (jid != "") && m.message.isSome then addKnown (pushMsg s jid m) jid
      else s).knownJIDs
    split_ifs with hc
    · exact mem_sadd_of_mem _ _ _ h
    · exact h

theorem known_mono_handleHistoryMsg (s : Store) (m : WAMessage) (j : String)
    (h : j ∈ s.knownJIDs) : j ∈ (handleHistoryMsg s m).knownJIDs := by
  unfold handleHistoryMsg
  split_ifs with hs
  · exact h
  · exact known_mono_handleMsgUpsert s m j h

theorem known_mono_chatStep (s : Store) (c : Chat) (j : String)
    (h : j ∈ s.knownJIDs) : j ∈ (chatStep s c).knownJIDs :=
  mem_sadd_of_mem _ _ _ h

theorem known_mono_historyChatStep (fetch : String → Option GroupMetadata) (s : Store)
    (c : Chat) (j : String) (h : j ∈ s.knownJIDs) :
    j ∈ (historyChatStep fetch s c).knownJIDs := by
  rw [known_historyChatStep]
  exact mem_sadd_of_mem _ _ _ h

theorem known_self_handleMsgUpsert (st : Store) (m : WAMessage) (jid : String)
    (hjid : m.key.remoteJid = some jid) (hne : jid ≠ "") (hsome : m.message.isSome = true) :
    jid ∈ (handleMsgUpsert st m).knownJIDs := by
  unfold handleMsgUpsert
  rw [hjid]
  show jid ∈ (if (jid != "") && m.message.isSome then addKnown (pushMsg st jid m) jid
    else st).knownJIDs
  have hcond : ((jid != "") && m.message.isSome) = true := by simp [hne, hsome]
  rw [if_pos hcond]
  exact mem_sadd_self _ _

theorem known_self_handleHistoryMsg (st : Store) (m : WAMessage) (jid : String)
    (hjid : m.key.remoteJid = some jid) (hne : jid ≠ "") (hsome : m.message.isSome = true) :
    jid ∈ (handleHistoryMsg st m).knownJIDs := by
  unfold handleHistoryMsg
  have hskip : skipHistoryMsg m = false := by
    cases hval : m.message with
    | none => rw [hval] at hsome; simp at hsome
    | some v => simp [skipHistoryMsg, hval]
  rw [hskip]
  simp only [Bool.false_eq_true, if_false]
  exact known_self_handleMsgUpsert st m jid hjid hne hsome

/-! Exact membership in knownJIDs after each registering step. -/

theorem mem_sadd_iff (l : List String) (i j : String) :
    j ∈ sadd l i ↔ (j ∈ l ∨ j = i) := by
  unfold sadd
  split_ifs with h
  · constructor
    · exact Or.inl
    · rintro (hj | rfl)
      · exact hj
      · exact h
  · simp [List.mem_append]

theorem known_chatStep_iff (st : Store) (c : Chat) (j : String) :
    j ∈ (chatStep st c).knownJIDs ↔ (j ∈ st.knownJIDs ∨ c.id = j) := by
  rw [known_chatStep, mem_sadd_iff]
  exact or_congr Iff.rfl eq_comm

theorem known_historyChatStep_iff (fetch : String → Option GroupMetadata) (st : Store)
    (c : Chat) (j : String) :
    j ∈ (historyChatStep fetch st c).knownJIDs ↔ (j ∈ st.knownJIDs ∨ c.id = j) := by
  rw [known_historyChatStep, mem_sadd_iff]
  exact or_congr Iff.rfl eq_comm

theorem known_handleMsgUpsert_iff (st : Store) (m : WAMessage) (j : String) :
    j ∈ (handleMsgUpsert st m).knownJIDs ↔
      (j ∈ st.knownJIDs ∨ (m.key.remoteJid = some j ∧ j ≠ "" ∧ m.message.isSome = true)) := by
  unfold handleMsgUpsert
  cases hj : m.key.remoteJid with
  | none => simp [hj]
  | some jid =>
    show j ∈ (if (jid != "") && m.message.isSome then addKnown (pushMsg st jid m) jid
      else st).knownJIDs ↔ _
    split_ifs with hcond
    · show j ∈ sadd st.knownJIDs jid ↔ _
      rw [mem_sadd_iff]
      rcases (Bool.and_eq_true _ _).mp hcond with ⟨h1, h2⟩
      have hne : jid ≠ "" := by
        intro hh
        rw [hh] at h1
        simp at h1
      constructor
      · rintro (h | rfl)
        · exact Or.inl h
        · exact Or.inr ⟨rfl, hne, h2⟩
      · rintro (h | ⟨hjj, hne2, hsome2⟩)
        · exact Or.inl h
        · exact Or.inr (Option.some.inj hjj).symm
    · constructor
      · exact Or.inl
      · rintro (h | ⟨hjj, hne2, hsome2⟩)
        · exact h
        · exfalso
          have heq : jid = j := Option.some.inj hjj
          apply hcond
          rw [heq]
          simp [hne2, hsome2]

theorem known_handleHistoryMsg_iff (st : Store) (m : WAMessage) (j : String) :
    j ∈ (handleHistoryMsg st m).knownJIDs ↔
      (j ∈ st.knownJIDs ∨ (m.key.remoteJid = some j ∧ j ≠ "" ∧ m.message.isSome = true)) := by
  unfold handleHistoryMsg
  split_ifs with hskip
  · have hnone : m.message = none :=
      Option.isNone_iff_eq_none.mp ((Bool.and_eq_true _ _).mp hskip).1
    simp [hnone]
  · exact known_handleMsgUpsert_iff st m j

/-- Exact membership through a fold whose step registers according to P. -/
theorem known_foldl_iff {α : Type} (f : Store → α → Store) (P : α → String → Prop)
    (hf : ∀ st a j, j ∈ (f st a).knownJIDs ↔ (j ∈ st.knownJIDs ∨ P a j)) :
    ∀ (l : List α) (s : Store) (j : String),
      j ∈ (l.foldl f s).knownJIDs ↔ (j ∈ s.knownJIDs ∨ ∃ a ∈ l, P a j)
  | [], s, j => by simp
  | a :: l, s, j => by
    rw [List.foldl_cons, known_foldl_iff f P hf l (f s a) j, hf]
    constructor
    · rintro ((h | hp) | ⟨b, hb, hp⟩)
      · exact Or.inl h
      · exact Or.inr ⟨a, List.mem_cons_self a l, hp⟩
      · exact Or.inr ⟨b, List.mem_cons_of_mem a hb, hp⟩
    · rintro (h | ⟨b, hb, hp⟩)
      · exact Or.inl (Or.inl h)
      · rcases List.mem_cons.mp hb with h' | h'
        · subst h'
          exact Or.inl (Or.inr hp)
        · exact Or.inr ⟨b, h', hp⟩

/-- Every event handler is monotone on the known set: no member is ever removed. -/
theorem known_mono_applyEvent (s : Store) (e : Event) (j : String)
    (h : j ∈ s.knownJIDs) : j ∈ (applyEvent s e).knownJIDs := by
  cases e with
  | historySet chats contacts msgs fetch =>
    show j ∈ (contacts.foldl historyContactStep (chats.foldl (historyChatStep fetch)
      (msgs.foldl handleHistoryMsg s))).knownJIDs
    rw [foldl_proj_eq _ Store.knownJIDs known_historyContactStep contacts _]
    exact foldl_pres _ (fun st => j ∈ st.knownJIDs)
      (fun st a hj => known_mono_historyChatStep fetch st a j hj) chats _
      (foldl_pres _ (fun st => j ∈ st.knownJIDs)
        (fun st a hj => known_mono_handleHistoryMsg st a j hj) msgs s h)
  | messagesUpsert msgs =>
    exact foldl_pres _ (fun st => j ∈ st.knownJIDs)
      (fun st a hj => known_mono_handleMsgUpsert st a j hj) msgs s h
  | chatsUpsert chats =>
    exact foldl_pres _ (fun st => j ∈ st.knownJIDs)
      (fun st a hj => known_mono_chatStep st a j hj) chats s h
  | contactsUpsert cs =>
    show j ∈ (cs.foldl contactStep s).knownJIDs
    rw [foldl_proj_eq _ Store.knownJIDs known_contactStep cs s]
    exact h
  | groupsUpsert gs =>
    show j ∈ (gs.foldl groupUpsertStep s).knownJIDs
    rw [foldl_proj_eq _ Store.knownJIDs known_groupUpsertStep gs s]
    exact h
  | groupsUpdate now gs =>
    show j ∈ (gs.foldl (groupUpdateStep now) s).knownJIDs
    rw [foldl_proj_eq _ Store.knownJIDs (known_groupUpdateStep now) gs s]
    exact h
  | participantsUpdate id parts action now fetched =>
    show j ∈ (participantsUpdateHandler s id parts action now fetched).knownJIDs
    rw [known_participantsUpdate]
    exact h

/-! The stored chat record after a chats.upsert fold. -/

theorem foldl_lastUpd (jid : String) (cs : List Chat) (init : Option Chat) :
    cs.foldl (fun acc c => if c.id == jid then some c else acc) init
      = (lastChatFor cs jid).or init := by
  induction cs generalizing init with
  | nil => rfl
  | cons c rest ih =>
    rw [List.foldl_cons]
    rw [ih]
    have hr : lastChatFor (c :: rest) jid
        = (lastChatFor rest jid).or (if c.id == jid then some c else none) := by
      unfold lastChatFor
      rw [List.foldl_cons]
      exact ih _
    rw [hr]
    cases lastChatFor rest jid with
    | some x => simp [Option.or]
    | none =>
      by_cases h : (c.id == jid) = true <;> simp [h, Option.or]

theorem getChat_chatStep (s : Store) (c : Chat) (jid : String) :
    getChat (chatStep s c) jid = if c.id == jid then some c else getChat s jid := by
  unfold getChat chatStep addKnown
  show aget (aset s.chatmeta c.id c) jid = _
  rw [aget_aset]
  by_cases h : jid = c.id
  · simp [h]
  · have hb : (c.id == jid) = false := beq_eq_false_iff_ne.mpr (fun hh => h hh.symm)
    simp [h, hb]

theorem getChat_chatsFold (cs : List Chat) (s : Store) (jid : String) :
    getChat (cs.foldl chatStep s) jid = (lastChatFor cs jid).or (getChat s jid) := by
  induction cs generalizing s with
  | nil => rfl
  | cons c rest ih =>
    rw [List.foldl_cons, ih, getChat_chatStep]
    have hr : lastChatFor (c :: rest) jid
        = (lastChatFor rest jid).or (if c.id == jid then some c else none) := by
      unfold lastChatFor
      rw [List.foldl_cons]
      exact foldl_lastUpd jid rest _
    rw [hr]
    cases lastChatFor rest jid with
    | some x => simp [Option.or]
    | none =>
      by_cases h : (c.id == jid) = true <;> simp [h, Option.or]

/-! The windowed accessor in list terms. -/

theorem getSingleChat_latest (s : Store) (jid : String) (k : Nat) :
    getSingleChatMessages s jid k MessageDirection.latest
      = (rawMsgs s jid).drop ((rawMsgs s jid).length - k) := by
  show lrange (rawMsgs s jid) (max (((rawMsgs s jid).length : Int) - k) 0)
    (((rawMsgs s jid).length : Int) - 1) = _
  exact lrange_latest _ _

theorem getSingleChat_earliest (s : Store) (jid : String) (k : Nat) (hk : 1 ≤ k) :
    getSingleChatMessages s jid k MessageDirection.earliest = (rawMsgs s jid).take k := by
  show lrange (rawMsgs s jid) 0 ((k : Int) - 1) = _
  exact lrange_earliest _ _ hk

/-! The jids surfaced by getAllChats. -/

theorem map_jid_filterMap (s : Store) :
    ∀ l : List String,
      (l.filterMap (fun jid => (getChat s jid).map (mkChatSummary s jid))).map ChatSummary.jid
        = l.filter (fun j => (getChat s j).isSome)
  | [] => rfl
  | j :: rest => by
    rw [List.filterMap_cons, List.filter_cons]
    cases h : getChat s j with
    | none => simp [h, map_jid_filterMap s rest]
    | some chat => simp [h, map_jid_filterMap s rest, mkChatSummary]

/-! The ten claims. -/

/-- Claim C1, counterexample: a contacts.upsert event does not place the contact
id in the known-conversations set, and a messages.upsert message whose remoteJid
is present but whose content payload is absent does not place its remoteJid in
the set either, against the claim that every event carrying a conversation id
registers it. -/
theorem C1_counterexample :
    ("carol@s.whatsapp.net"
      ∉ (applyEvent emptyStore (Event.contactsUpsert [contactCarol])).knownJIDs) ∧
    (msgRevoked.key.remoteJid = some "x@s.whatsapp.net" ∧
      "x@s.whatsapp.net"
        ∉ (applyEvent emptyStore (Event.messagesUpsert [msgRevoked])).knownJIDs) := by
  decide

/-- Claim C1, amended: the known set is monotone under every operation (no member
is ever removed), and after each registering event its membership is
characterised exactly: a history snapshot adds precisely its chat ids and the
remoteJids of its messages carrying a content payload, chats.upsert adds
precisely its chat ids, messages.upsert adds precisely the remoteJids of its
content-carrying messages; in particular a message whose remoteJid is present
but whose content payload is absent does not register its conversation.
contacts.upsert, groups.upsert, groups.update and group-participants.update
leave the set unchanged, and the getGroupMetadata fallback does not touch it. -/
theorem C1_known_registration (s : Store) (e : Event) :
    (∀ j ∈ s.knownJIDs, j ∈ (applyEvent s e).knownJIDs) ∧
    (∀ chats contacts msgs fetch, e = Event.historySet chats contacts msgs fetch →
      ∀ j, j ∈ (applyEvent s e).knownJIDs ↔
        (j ∈ s.knownJIDs ∨ (∃ c ∈ chats, c.id = j) ∨
          ∃ m ∈ msgs, m.key.remoteJid = some j ∧ j ≠ "" ∧ m.message.isSome = true)) ∧
    (∀ chats, e = Event.chatsUpsert chats →
      ∀ j, j ∈ (applyEvent s e).knownJIDs ↔
        (j ∈ s.knownJIDs ∨ ∃ c ∈ chats, c.id = j)) ∧
    (∀ msgs, e = Event.messagesUpsert msgs →
      ∀ j, j ∈ (applyEvent s e).knownJIDs ↔
        (j ∈ s.knownJIDs ∨
          ∃ m ∈ msgs, m.key.remoteJid = some j ∧ j ≠ "" ∧ m.message.isSome = true)) ∧
    (∀ cs, e = Event.contactsUpsert cs → (applyEvent s e).knownJIDs = s.knownJIDs) ∧
    (∀ gs, e = Event.groupsUpsert gs → (applyEvent s e).knownJIDs = s.knownJIDs) ∧
    (∀ now gs, e = Event.groupsUpdate now gs → (applyEvent s e).knownJIDs = s.knownJIDs) ∧
    (∀ id parts action now f, e = Event.participantsUpdate id parts action now f →
      (applyEvent s e).knownJIDs = s.knownJIDs) ∧
    (∀ fetch jid, ((getGroupMetadataOp fetch s jid).state).knownJIDs = s.knownJIDs) := by
  refine ⟨fun j h => known_mono_applyEvent s e j h, ?_, ?_, ?_, ?_, ?_, ?_, ?_,
    fun fetch jid => (state_getGroupMetadataOp fetch s jid).1⟩
  · intro chats contacts msgs fetch he j
    subst he
    show j ∈ (contacts.foldl historyContactStep (chats.foldl (historyChatStep fetch)
      (msgs.foldl handleHistoryMsg s))).knownJIDs ↔ _
    rw [foldl_proj_eq _ Store.knownJIDs known_historyContactStep contacts _]
    rw [known_foldl_iff (historyChatStep fetch) (fun c j => c.id = j)
      (known_historyChatStep_iff fetch) chats _ j]
    rw [known_foldl_iff handleHistoryMsg
      (fun m j => m.key.remoteJid = some j ∧ j ≠ "" ∧ m.message.isSome = true)
      known_handleHistoryMsg_iff msgs s j]
    constructor
    · rintro ((h | hm) | hc)
      · exact Or.inl h
      · exact Or.inr (Or.inr hm)
      · exact Or.inr (Or.inl hc)
    · rintro (h | hc | hm)
      · exact Or.inl (Or.inl h)
      · exact Or.inr hc
      · exact Or.inl (Or.inr hm)
  · intro chats he j
    subst he
    exact known_foldl_iff chatStep (fun c j => c.id = j) known_chatStep_iff chats s j
  · intro msgs he j
    subst he
    exact known_foldl_iff handleMsgUpsert
      (fun m j => m.key.remoteJid = some j ∧ j ≠ "" ∧ m.message.isSome = true)
      known_handleMsgUpsert_iff msgs s j
  · intro cs he
    subst he
    exact foldl_proj_eq _ Store.knownJIDs known_contactStep cs s
  · intro gs he
    subst he
    exact foldl_proj_eq _ Store.knownJIDs known_groupUpsertStep gs s
  · intro now gs he
    subst he
    exact foldl_proj_eq _ Store.knownJIDs (known_groupUpdateStep now) gs s
  · intro id parts action now f he
    subst he
    rfl

/-- Claim C1, witness: a chats.upsert event registers the chat id, and by the
other direction of the characterisation a message with a remoteJid but no
content payload registers nothing. -/
theorem C1_known_registration_witness :
    ("w@s.whatsapp.net" ∈ (applyEvent emptyStore (Event.chatsUpsert [chatW])).knownJIDs) ∧
    ("x@s.whatsapp.net"
      ∉ (applyEvent emptyStore (Event.messagesUpsert [msgRevoked])).knownJIDs) := by
  constructor
  · exact ((C1_known_registration emptyStore (Event.chatsUpsert [chatW])).2.2.1 [chatW] rfl
      "w@s.whatsapp.net").mpr (Or.inr ⟨chatW, List.mem_singleton.mpr rfl, rfl⟩)
  · intro hmem
    have h := ((C1_known_registration emptyStore
      (Event.messagesUpsert [msgRevoked])).2.2.2.1 [msgRevoked] rfl
      "x@s.whatsapp.net").mp hmem
    rcases h with h | ⟨m, hm, hjid, hne, hsome⟩
    · exact absurd h (by decide)
    · rcases List.mem_singleton.mp hm with rfl
      exact absurd hsome (by decide)

/-- Claim C2: the message list of every conversation is append-only and order
preserving. Over any event sequence the stored list of conversation c is the
old list followed by exactly the messages the events append for c in delivery
order, independent of interleaved appends for other conversations, and the
stateful getGroupMetadata fallback never changes any message list. -/
theorem C2_append_only_order (s : Store) (es : List Event) (c : String) :
    (getMessages (applyEvents s es) c
      = getMessages s c ++ (es.map (appendedMessages c)).flatten) ∧
    (∀ fetch jid, getMessages ((getGroupMetadataOp fetch s jid).state) c = getMessages s c) := by
  constructor
  · induction es generalizing s with
    | nil => simp [applyEvents, getMessages_eq_raw]
    | cons e rest ih =>
      show getMessages (applyEvents (applyEvent s e) rest) c = _
      rw [ih (applyEvent s e), getMessages_eq_raw, getMessages_eq_raw, rawMsgs_applyEvent,
        List.map_cons, List.flatten_cons]
      simp [List.append_assoc]
  · intro fetch jid
    rw [getMessages_eq_raw, getMessages_eq_raw]
    unfold rawMsgs
    rw [(state_getGroupMetadataOp fetch s jid).2]

/-- Claim C3, counterexample: a history message that has a remoteJid but no
content payload and a stub type other than the ciphertext code is not appended
and its conversation is not registered, against the claim that every
non-ciphertext message with a remoteJid is appended. -/
theorem C3_counterexample :
    skipHistoryMsg msgRevoked = false ∧
    msgRevoked.key.remoteJid = some "x@s.whatsapp.net" ∧
    getMessages (handleHistoryMsg emptyStore msgRevoked) "x@s.whatsapp.net" = [] ∧
    "x@s.whatsapp.net" ∉ (handleHistoryMsg emptyStore msgRevoked).knownJIDs := by
  decide

/-- Claim C3, amended, on the per-message step of the messaging-history.set
handler: a message with no content payload is never appended and never changes
the store, whether or not its stub type is the ciphertext code; a message with a
truthy remoteJid and a content payload is appended to exactly its conversation
and that conversation is registered as known. -/
theorem C3_history_skip (s : Store) (m : WAMessage) :
    (m.message = none → handleHistoryMsg s m = s) ∧
    (∀ jid, m.key.remoteJid = some jid → jid ≠ "" → m.message.isSome = true →
      getMessages (handleHistoryMsg s m) jid = getMessages s jid ++ [m] ∧
      jid ∈ (handleHistoryMsg s m).knownJIDs ∧
      ∀ c, c ≠ jid → getMessages (handleHistoryMsg s m) c = getMessages s c) := by
  constructor
  · intro hnone
    unfold handleHistoryMsg
    split_ifs with h
    · rfl
    · unfold handleMsgUpsert
      cases hj : m.key.remoteJid with
      | none => rfl
      | some jid => simp [hnone]
  · intro jid hjid hne hsome
    have hm : msgFor jid m = true := by
      simp [msgFor, hjid, hne, hsome]
    refine ⟨?_, known_self_handleHistoryMsg s m jid hjid hne hsome, ?_⟩
    · rw [getMessages_eq_raw, getMessages_eq_raw, rawMsgs_handleHistoryMsg, hm]
      simp
    · intro c hc
      have hmc : msgFor c m = false := by
        have hne2 : ((some jid : Option String) == some c) = false :=
          beq_eq_false_iff_ne.mpr (fun h => hc (Option.some.inj h).symm)
        simp [msgFor, hjid, hne2]
      rw [getMessages_eq_raw, getMessages_eq_raw, rawMsgs_handleHistoryMsg, hmc]
      simp

/-- Claim C3, witness: a content message is appended and its conversation
registered by the history handler. -/
theorem C3_history_skip_witness :
    getMessages (handleHistoryMsg emptyStore msgHello) "c@s.whatsapp.net"
      = getMessages emptyStore "c@s.whatsapp.net" ++ [msgHello] ∧
    "c@s.whatsapp.net" ∈ (handleHistoryMsg emptyStore msgHello).knownJIDs := by
  have h := (C3_history_skip emptyStore msgHello).2 "c@s.whatsapp.net" rfl (by decide) rfl
  exact ⟨h.1, h.2.1⟩

/-- Claim C4: the contacts.upsert handler stores the merge of the existing and
incoming records; the merge keeps, for each of the three name fields, the
incoming value when truthy and the existing value otherwise, while the avatar
field and every other field named in the incoming update overlay the existing
record. -/
theorem C4_contact_merge (s : Store) (ex inc : Contact)
    (h : getContact s inc.id = some ex) :
    getContact (applyEvent s (Event.contactsUpsert [inc])) inc.id
      = some (mergeContact ex inc) ∧
    (mergeContact ex inc).name = (if strTruthy inc.name then inc.name else ex.name) ∧
    (mergeContact ex inc).verifiedName
      = (if strTruthy inc.verifiedName then inc.verifiedName else ex.verifiedName) ∧
    (mergeContact ex inc).notify = (if strTruthy inc.notify then inc.notify else ex.notify) ∧
    (mergeContact ex inc).imgUrl = inc.imgUrl.or ex.imgUrl ∧
    (∀ k, aget (mergeContact ex inc).other k = (aget inc.other k).or (aget ex.other k)) := by
  refine ⟨?_, rfl, rfl, rfl, rfl, fun k => aget_overlayFields _ _ k⟩
  unfold getContact at h
  show getContact (contactStep s inc) inc.id = some (mergeContact ex inc)
  unfold getContact contactStep
  simp only [h]
  rw [aget_aset, if_pos rfl]
  simp

/-- Claim C4, witness: the Alice example; the empty incoming display name keeps
Alice, the verified name is taken from the update, the notify name survives. -/
theorem C4_contact_merge_witness :
    getContact (applyEvent storeAlice (Event.contactsUpsert [contactAliceIncoming]))
        "a@s.whatsapp.net"
      = some ⟨"a@s.whatsapp.net", some "Alice", some "Alice V", some "A", none, []⟩ := by
  have h := (C4_contact_merge storeAlice contactAliceExisting contactAliceIncoming
    (by decide)).1
  exact h.trans (by decide)

/-- Claim C5, counterexample: with one stored message, the windowed accessor at
count 0 in direction earliest returns the whole list, not the first zero
messages, because the handler issues LRANGE 0 -1. -/
theorem C5_counterexample :
    ¬ (getSingleChatMessages storeOneMsg "c@s.whatsapp.net" 0 MessageDirection.earliest
      = (getMessages storeOneMsg "c@s.whatsapp.net").take 0) := by
  decide

/-- Claim C5, amended: direction latest returns the last min(k, n) stored
messages in original order for every count k, the whole list when n is at most
k; direction earliest returns the first min(k, n) messages for every count k of
at least 1 (at count 0 it returns the whole list); the count defaults to 20 with
direction latest. -/
theorem C5_window (s : Store) (jid : String) (k : Nat) :
    (getSingleChatMessages s jid k MessageDirection.latest
      = (getMessages s jid).drop ((getMessages s jid).length - k)) ∧
    ((getMessages s jid).length ≤ k →
      getSingleChatMessages s jid k MessageDirection.latest = getMessages s jid) ∧
    (1 ≤ k → getSingleChatMessages s jid k MessageDirection.earliest
      = (getMessages s jid).take k) ∧
    (getSingleChatMessagesDefault s jid
      = (getMessages s jid).drop ((getMessages s jid).length - 20)) := by
  refine ⟨?_, ?_, ?_, ?_⟩
  · rw [getMessages_eq_raw, getSingleChat_latest]
  · intro hle
    rw [getMessages_eq_raw] at hle ⊢
    rw [getSingleChat_latest]
    have h0 : (rawMsgs s jid).length - k = 0 := by omega
    rw [h0, List.drop_zero]
  · intro hk
    rw [getMessages_eq_raw, getSingleChat_earliest s jid k hk]
  · show getSingleChatMessages s jid 20 MessageDirection.latest = _
    rw [getMessages_eq_raw, getSingleChat_latest]

/-- Claim C5, witness: with one stored message, earliest at count 2 returns the
first two and latest at count 20 returns everything. -/
theorem C5_window_witness :
    (getSingleChatMessages storeOneMsg "c@s.whatsapp.net" 2 MessageDirection.earliest
      = (getMessages storeOneMsg "c@s.whatsapp.net").take 2) ∧
    (getSingleChatMessages storeOneMsg "c@s.whatsapp.net" 20 MessageDirection.latest
      = getMessages storeOneMsg "c@s.whatsapp.net") :=
  ⟨(C5_window storeOneMsg "c@s.whatsapp.net" 2).2.2.1 (by decide),
   (C5_window storeOneMsg "c@s.whatsapp.net" 20).2.1 (by decide)⟩

/-- Claim C6: when nothing is stored under a group id, getGroupMetadata performs
exactly one remote fetch; a successful fetch is persisted under the key and
returned, and a second call then returns that persisted value; a failed fetch
yields not-found, with the store unchanged, rather than an error. -/
theorem C6_group_fallback (fetch : String → Option GroupMetadata) (s : Store) (g : String)
    (h : aget s.groupmeta g = none) :
    (getGroupMetadataOp fetch s g).fetches = 1 ∧
    (∀ M, fetch g = some M →
      (getGroupMetadataOp fetch s g).result = some M ∧
      aget ((getGroupMetadataOp fetch s g).state).groupmeta g = some M ∧
      (getGroupMetadataOp fetch (getGroupMetadataOp fetch s g).state g).result = some M) ∧
    (fetch g = none →
      (getGroupMetadataOp fetch s g).result = none ∧
      (getGroupMetadataOp fetch s g).state = s) := by
  refine ⟨?_, ?_, ?_⟩
  · unfold getGroupMetadataOp
    rw [h]
    cases hf : fetch g <;> rfl
  · intro M hM
    have hop : getGroupMetadataOp fetch s g
        = ⟨some M, { s with groupmeta := aset s.groupmeta g M }, 1⟩ := by
      unfold getGroupMetadataOp
      rw [h, hM]
    refine ⟨?_, ?_, ?_⟩
    · rw [hop]
    · rw [hop]
      show aget (aset s.groupmeta g M) g = some M
      rw [aget_aset, if_pos rfl]
    · rw [hop]
      show (getGroupMetadataOp fetch { s with groupmeta := aset s.groupmeta g M } g).result
        = some M
      unfold getGroupMetadataOp
      have ha : aget (aset s.groupmeta g M) g = some M := by rw [aget_aset, if_pos rfl]
      rw [show ({ s with groupmeta := aset s.groupmeta g M } : Store).groupmeta
        = aset s.groupmeta g M from rfl, ha]
  · intro hf
    have hop : getGroupMetadataOp fetch s g = ⟨none, s, 1⟩ := by
      unfold getGroupMetadataOp
      rw [h, hf]
    rw [hop]
    exact ⟨rfl, rfl⟩

/-- Claim C6, witness: with nothing stored and a working fetch returning the
Team metadata, the call returns it and a second call returns the same value. -/
theorem C6_group_fallback_witness :
    (getGroupMetadataOp fetchTeam emptyStore "g6@g.us").result = some metaTeam ∧
    (getGroupMetadataOp fetchTeam (getGroupMetadataOp fetchTeam emptyStore "g6@g.us").state
        "g6@g.us").result = some metaTeam := by
  have h := (C6_group_fallback fetchTeam emptyStore "g6@g.us" rfl).2.1 metaTeam (by decide)
  exact ⟨h.1, h.2.2⟩

/-- Claim C7: handling the same chats.upsert event twice leaves the stored
ConversationMeta of every id equal to the state after handling it once. -/
theorem C7_chat_upsert_idempotent (s : Store) (chats : List Chat) (jid : String) :
    getChat (applyEvent (applyEvent s (Event.chatsUpsert chats)) (Event.chatsUpsert chats)) jid
      = getChat (applyEvent s (Event.chatsUpsert chats)) jid := by
  show getChat (chats.foldl chatStep (chats.foldl chatStep s)) jid
    = getChat (chats.foldl chatStep s) jid
  rw [getChat_chatsFold, getChat_chatsFold]
  cases lastChatFor chats jid <;> simp [Option.or]

/-- Claim C8, counterexample: the getAllChats summary carries the full last
message including its content payload, against the claim that the last-message
digest holds only key, timestamp and stub type. -/
theorem C8_counterexample :
    ¬ (∀ e ∈ getAllChats storeSummary, (e.lastMessage.bind WAMessage.message) = none) := by
  decide

/-- Claim C8, amended: the getAllChats row of a known conversation with stored
chat metadata carries the full final entry of its message list as lastMessage,
while the separate mostRecentMessage accessor returns that final entry reduced
to key, timestamp and stub type. -/
theorem C8_summary_digest (s : Store) (jid : String) (chat : Chat)
    (hknown : jid ∈ s.knownJIDs) (hchat : getChat s jid = some chat) :
    ∃ e ∈ getAllChats s, e.jid = jid ∧
      e.lastMessage = (getMessages s jid).getLast? ∧
      mostRecentMessage s jid = ((getMessages s jid).getLast?).map digestOf := by
  refine ⟨mkChatSummary s jid chat, ?_, rfl, ?_, ?_⟩
  · exact List.mem_filterMap.mpr ⟨jid, hknown, by rw [hchat]; rfl⟩
  · show lindex (rawMsgs s jid) (-1) = (getMessages s jid).getLast?
    rw [lindex_neg_one, getMessages_eq_raw]
  · unfold mostRecentMessage
    rw [lindex_neg_one, getMessages_eq_raw]

/-- Claim C8, witness: the store with one chat and one content message has a
summary row whose lastMessage is the stored message and whose
mostRecentMessage digest is its reduction. -/
theorem C8_summary_digest_witness :
    ∃ e ∈ getAllChats storeSummary, e.jid = "c8@s.whatsapp.net" ∧
      e.lastMessage = (getMessages storeSummary "c8@s.whatsapp.net").getLast? ∧
      mostRecentMessage storeSummary "c8@s.whatsapp.net"
        = ((getMessages storeSummary "c8@s.whatsapp.net").getLast?).map digestOf :=
  C8_summary_digest storeSummary "c8@s.whatsapp.net" chatC8 (by decide) (by decide)

/-- Claim C9, counterexample: with three participants stored and a failing
remote re-fetch, the written annotation counts zero participants instead of
deriving the count from the freshest available (stored) metadata. -/
theorem C9_counterexample :
    ((aget (applyEvent storeGroupThree evRemoveP2).groupmeta "g9@g.us").bind
        GroupMetadata.lastParticipantUpdate).map ParticipantUpdateInfo.participantCount
      = some 0 ∧
    ((aget storeGroupThree.groupmeta "g9@g.us").bind GroupMetadata.participants).map
        List.length = some 3 := by
  decide

/-- Claim C9, amended: group-participants.update writes, under the event id,
the merge of the existing record with the fetched metadata (the empty object on
fetch failure), annotated with the participants, action, timestamp, and a
participant count and admin list derived from the fetched metadata alone, so
both are zero and empty when the fetch fails; metadata of other groups is
untouched. -/
theorem C9_participants_update (s : Store) (id : String) (parts : List String)
    (action : String) (now : Nat) (fetched : Option GroupMetadata) :
    (aget (applyEvent s (Event.participantsUpdate id parts action now fetched)).groupmeta id
      = some { overlayGroup ((aget s.groupmeta id).getD emptyGroupMeta)
          (fetched.getD emptyGroupMeta) with
          lastParticipantUpdate := some
            ⟨parts, action, now,
              (((fetched.getD emptyGroupMeta).participants).map List.length).getD 0,
              ((((fetched.getD emptyGroupMeta).participants).getD []).filter adminTruthy).map
                Participant.id⟩ }) ∧
    (∀ g, g ≠ id →
      aget (applyEvent s (Event.participantsUpdate id parts action now fetched)).groupmeta g
        = aget s.groupmeta g) ∧
    (fetched = none →
      aget (applyEvent s (Event.participantsUpdate id parts action now fetched)).groupmeta id
        = some { overlayGroup ((aget s.groupmeta id).getD emptyGroupMeta) emptyGroupMeta with
            lastParticipantUpdate := some ⟨parts, action, now, 0, []⟩ }) := by
  have hmain : aget (participantsUpdateHandler s id parts action now fetched).groupmeta id
      = some { overlayGroup ((aget s.groupmeta id).getD emptyGroupMeta)
          (fetched.getD emptyGroupMeta) with
          lastParticipantUpdate := some
            ⟨parts, action, now,
              (((fetched.getD emptyGroupMeta).participants).map List.length).getD 0,
              ((((fetched.getD emptyGroupMeta).participants).getD []).filter adminTruthy).map
                Participant.id⟩ } := by
    unfold participantsUpdateHandler
    show aget (aset s.groupmeta id _) id = _
    rw [aget_aset, if_pos rfl]
  refine ⟨hmain, ?_, ?_⟩
  · intro g hg
    show aget (aset s.groupmeta id _) g = _
    rw [aget_aset, if_neg hg]
  · intro hf
    subst hf
    exact hmain

/-- Claim C9, witness: the failing-fetch update on the stored three-participant
group leaves other groups untouched and writes the annotation with count zero. -/
theorem C9_participants_update_witness :
    aget (applyEvent storeGroupThree evRemoveP2).groupmeta "other@g.us" = none ∧
    aget (applyEvent storeGroupThree evRemoveP2).groupmeta "g9@g.us"
      = some { overlayGroup ((aget storeGroupThree.groupmeta "g9@g.us").getD emptyGroupMeta)
          emptyGroupMeta with
          lastParticipantUpdate := some ⟨["p2@s"], "remove", 100, 0, []⟩ } := by
  have h := C9_participants_update storeGroupThree "g9@g.us" ["p2@s"] "remove" 100 none
  unfold evRemoveP2
  constructor
  · rw [h.2.1 "other@g.us" (by decide)]
    decide
  · exact h.2.2 rfl

/-- Claim C10: the getAllChats view surfaces exactly the known conversation ids
that have stored chat metadata, in the order of the known set; a known id
without chat metadata is silently omitted. -/
theorem C10_summaries_known_meta (s : Store) :
    (getAllChats s).map ChatSummary.jid
      = s.knownJIDs.filter (fun j => (getChat s j).isSome) :=
  map_jid_filterMap s s.knownJIDs

end RedisStore
